import Mathlib

set_option maxHeartbeats 1000000

set_option maxRecDepth 8192

/-!
Verification of the analisis-invgate-boreal service against its specification.

The definitions below are a shallow embedding of `src/main.py`: pure helpers are
translated directly, and the stateful background job is modelled as explicit
state passing over a `Job` record, with every external side effect (Drive API,
OpenAI API, clock, rasterizer page count) supplied by an environment record of
`Except`-valued outcomes.  Status strings are kept exactly as in the source
(`"en_cola"`, `"procesando"`, `"finalizado"`, `"error"`); the specification's
names queued/processing/finished/error map to these in order.
-/

namespace InvgateBoreal

/-- Threshold constant `MIN_CHARS_TEXT` from main.py: below this many characters
the extracted text is considered not useful. -/
def MIN_CHARS_TEXT : Nat := 150

/-- Membership in the character class of the regex `[A-Za-zÁÉÍÓÚáéíóúÑñ]` used
by `pdf_has_meaningful_text` (ASCII letters plus the accented vowels and enye,
upper and lower case). -/
def isSpanishLetter (c : Char) : Bool :=
  decide ('A' ≤ c ∧ c ≤ 'Z') || decide ('a' ≤ c ∧ c ≤ 'z') ||
  c == 'Á' || c == 'É' || c == 'Í' || c == 'Ó' || c == 'Ú' ||
  c == 'á' || c == 'é' || c == 'í' || c == 'ó' || c == 'ú' ||
  c == 'Ñ' || c == 'ñ'

/-- Embedding of `re.search(r"[A-Za-zÁÉÍÓÚáéíóúÑñ]{3,}", ...)` viewed as a
boolean: the character list has three consecutive characters of the class
(a match of length at least 3 exists iff a window of exactly 3 matches). -/
def containsLetterRun3 : List Char → Bool
  | a :: b :: c :: rest =>
      (isSpanishLetter a && isSpanishLetter b && isSpanishLetter c)
        || containsLetterRun3 (b :: c :: rest)
  | _ => false

/-- Specification-level reading of the same regex condition: the list splits
around three consecutive characters of the class. -/
def HasLetterRun3 (l : List Char) : Prop :=
  ∃ pre a b c suf, l = pre ++ a :: b :: c :: suf ∧
    isSpanishLetter a = true ∧ isSpanishLetter b = true ∧ isSpanishLetter c = true

/-- Embedding of `pdf_has_meaningful_text` from main.py: empty text is rejected
(`if not pdf_text`), text shorter than `MIN_CHARS_TEXT` is rejected, otherwise
the regex letter-run check decides.  Python `len` counts code points, matching
`String.length`. -/
def pdf_has_meaningful_text (pdf_text : String) : Bool :=
  if pdf_text.length = 0 then false
  else if pdf_text.length < MIN_CHARS_TEXT then false
  else containsLetterRun3 pdf_text.toList

/-- A purely numeric sample of 160 characters (used to exercise the
letterless-input branch of the heuristic). -/
def digits160 : String :=
  "0123456789012345678901234567890123456789012345678901234567890123456789012345678901234567890123456789012345678901234567890123456789012345678901234567890123456789"

/-! ### Generic string helpers used by the embedding -/

/-- The double-quote character. -/
def quoteChar : Char := Char.ofNat 34

/-- The apostrophe (single-quote) character. -/
def aposChar : Char := Char.ofNat 39

/-- Whether `needle` is an initial segment of `hay` (character lists). -/
def charsStartWith : List Char → List Char → Bool
  | [], _ => true
  | _ :: _, [] => false
  | a :: as, b :: bs => a == b && charsStartWith as bs

/-- Whether `needle` occurs as a contiguous run inside `hay` (character lists). -/
def charsContain (needle : List Char) : List Char → Bool
  | [] => charsStartWith needle []
  | c :: rest => charsStartWith needle (c :: rest) || charsContain needle rest

/-- Whether `needle` occurs as a substring of `hay`. -/
def strContains (needle hay : String) : Bool :=
  charsContain needle.toList hay.toList

/-! ### HTML escaping (`escape_html` in main.py) -/

/-- Embedding of Python `str.replace` for a single-character pattern: each
occurrence of `old` is replaced by the character sequence `new`. -/
def replaceChar (old : Char) (new : List Char) : List Char → List Char
  | [] => []
  | c :: rest => (if c = old then new else [c]) ++ replaceChar old new rest

/-- Entity for ampersand. -/
def entAmp : List Char := ['&', 'a', 'm', 'p', ';']

/-- Entity for the less-than sign. -/
def entLt : List Char := ['&', 'l', 't', ';']

/-- Entity for the greater-than sign. -/
def entGt : List Char := ['&', 'g', 't', ';']

/-- Entity for the double quote. -/
def entQuot : List Char := ['&', 'q', 'u', 'o', 't', ';']

/-- Entity for the apostrophe. -/
def entApos : List Char := ['&', '#', '0', '3', '9', ';']

/-- The chain of five `replace` calls from `escape_html` in main.py, in source
order: ampersand first, then angle brackets, then the two quote characters. -/
def escapeChars (l : List Char) : List Char :=
  replaceChar aposChar entApos
    (replaceChar quoteChar entQuot
      (replaceChar '>' entGt
        (replaceChar '<' entLt
          (replaceChar '&' entAmp l))))

/-- String form of the escaping chain. -/
def escapeStr (s : String) : String := String.mk (escapeChars s.toList)

/-- A Python value as it may reach `escape_html`: `None`, a string, or some
non-string value (modelled by integers and booleans, whose Python `str()`
forms are reproduced by `pyStr`). -/
inductive PyVal where
  | vNone
  | vStr (s : String)
  | vInt (n : Int)
  | vBool (b : Bool)
deriving Repr, DecidableEq

/-- Python `str()` on the modelled values. -/
def pyStr : PyVal → String
  | .vNone => "None"
  | .vStr s => s
  | .vInt n => toString n
  | .vBool true => "True"
  | .vBool false => "False"

/-- Embedding of `escape_html` from main.py: `None` yields the empty string;
any other value is converted with `str()` and the five special characters are
replaced by their entities through chained `replace` calls. -/
def escape_html (s : PyVal) : String :=
  match s with
  | .vNone => ""
  | v => escapeStr (pyStr v)

/-! ### Data model: extraction results, consolidated case file, final report -/

/-- An opaque parsed-JSON payload returned by the structured-extraction calls
(the pipeline never inspects it, only carries it). -/
structure JsonVal where
  raw : String
deriving Repr, DecidableEq

/-- One page entry of the image/OCR path: page number (1-based), image file
name, and the per-page extraction payload. -/
structure PageResult where
  pagina : Nat
  imagen : String
  resultado_json : JsonVal
deriving Repr, DecidableEq

/-- A Document Extraction Result as built by `process_single_pdf`: either the
digital-text dict (keys archivo / tipo_procesamiento="texto_digital" /
texto_extraido_chars / resultado_json) or the vision dict (keys archivo /
tipo_procesamiento="vision_ocr" / paginas / resultado_paginas). -/
inductive DocResult where
  | textoDigital (archivo : String) (texto_extraido_chars : Nat) (resultado_json : JsonVal)
  | visionOcr (archivo : String) (paginas : Nat) (resultado_paginas : List PageResult)
deriving Repr, DecidableEq

/-- The consolidated case file built by `consolidate_documents`. -/
structure Consolidated where
  documentos : List DocResult
deriving Repr, DecidableEq

/-- Embedding of `consolidate_documents` from main.py. -/
def consolidate_documents (doc_results : List DocResult) : Consolidated :=
  { documentos := doc_results }

/-- The Final Report Schema as a parsed JSON object; every field is optional
because the dict is read with `.get(key, default)`. -/
structure FinalReport where
  resumen_clinico : Option String
  diagnostico_presuntivo : Option String
  justificacion : Option (List String)
  evaluacion_cobertura : Option (List String)
  recomendaciones : Option (List String)
  red_flags : Option (List String)
  pendientes : Option (List String)
deriving Repr, DecidableEq

/-- A final report with every field absent. -/
def emptyReport : FinalReport :=
  { resumen_clinico := none, diagnostico_presuntivo := none, justificacion := none,
    evaluacion_cobertura := none, recomendaciones := none, red_flags := none,
    pendientes := none }

/-- Models the JSON rendering of one page entry inside
`json.dumps(consolidated, ...)`. -/
def pageResultJson (p : PageResult) : String :=
  "\x7b\"pagina\": " ++ Nat.repr p.pagina ++ ", \"imagen\": \"" ++ p.imagen ++
    "\", \"resultado_json\": " ++ p.resultado_json.raw ++ "\x7d"

/-- Models the JSON rendering of one Document Extraction Result inside
`json.dumps(consolidated, ...)`. -/
def docResultJson : DocResult → String
  | .textoDigital a n r =>
      "\x7b\"archivo\": \"" ++ a ++ "\", \"tipo_procesamiento\": \"texto_digital\", " ++
        "\"texto_extraido_chars\": " ++ Nat.repr n ++ ", \"resultado_json\": " ++ r.raw ++ "\x7d"
  | .visionOcr a n ps =>
      "\x7b\"archivo\": \"" ++ a ++ "\", \"tipo_procesamiento\": \"vision_ocr\", " ++
        "\"paginas\": " ++ Nat.repr n ++ ", \"resultado_paginas\": [" ++
        String.intercalate ", " (ps.map pageResultJson) ++ "]\x7d"

/-- Models `json.dumps(consolidated, ensure_ascii=False, indent=2)` from
`build_html_report`; the indentation layout is abstracted to a one-line
rendering, which no claim depends on. -/
def json_dumps_consolidated (c : Consolidated) : String :=
  "\x7b\"documentos\": [" ++ String.intercalate ", " (c.documentos.map docResultJson) ++ "]\x7d"

/-- Embedding of the local helper `li` of `build_html_report`: an empty (or
absent) item list renders a placeholder; otherwise each item is escaped and
wrapped in a list tag, joined by newlines. -/
def li (items : List String) : String :=
  if items.isEmpty then "<li>(sin datos)</li>"
  else String.intercalate "\n"
    (items.map (fun x => "<li>" ++ escape_html (PyVal.vStr x) ++ "</li>"))

/-- The fixed head part (doctype, head, style) of the report template, with the
f-string brace escapes already rendered to literal braces. -/
def htmlHead : String :=
  "<!doctype html>\n" ++
  "<html lang=\"es\">\n" ++
  "<head>\n" ++
  "  <meta charset=\"utf-8\" />\n" ++
  "  <meta name=\"viewport\" content=\"width=device-width, initial-scale=1\" />\n" ++
  "  <title>Informe Auditoría Médica IA</title>\n" ++
  "  <style>\n" ++
  "    body \x7b font-family: Arial, sans-serif; margin: 24px; color: #111; \x7d\n" ++
  "    .header \x7b border-bottom: 2px solid #ddd; padding-bottom: 12px; margin-bottom: 18px; \x7d\n" ++
  "    .meta \x7b color: #444; font-size: 12px; \x7d\n" ++
  "    h1 \x7b font-size: 22px; margin: 0; \x7d\n" ++
  "    h2 \x7b font-size: 16px; margin-top: 18px; border-left: 4px solid #999; padding-left: 8px; \x7d\n" ++
  "    p \x7b line-height: 1.45; \x7d\n" ++
  "    ul \x7b margin-top: 6px; \x7d\n" ++
  "    .box \x7b background: #f7f7f7; padding: 12px; border-radius: 8px; \x7d\n" ++
  "    .small \x7b font-size: 12px; color: #555; \x7d\n" ++
  "    code \x7b background: #eee; padding: 2px 6px; border-radius: 6px; \x7d\n" ++
  "    .footer \x7b margin-top: 24px; border-top: 1px solid #eee; padding-top: 10px; \x7d\n" ++
  "    details \x7b margin-top: 12px; \x7d\n" ++
  "    pre \x7b white-space: pre-wrap; word-wrap: break-word; background: #fafafa; padding: 10px; border: 1px solid #eee; border-radius: 8px; \x7d\n" ++
  "  </style>\n" ++
  "</head>\n"

/-- Embedding of `build_html_report` from main.py.  `now` stands for the
`datetime.now().strftime(...)` string read inside the function.  Note that
`job_id`, `folder_id` and `now` are interpolated without escaping, while the
report fields and the consolidated debug JSON pass through `escape_html`. -/
def build_html_report (job_id folder_id now : String)
    (final_report : FinalReport) (consolidated : Consolidated) : String :=
  htmlHead ++
  "<body>\n" ++
  "  <div class=\"header\">\n" ++
  "    <h1>Informe de Auditoría Médica Automatizada (IA)</h1>\n" ++
  "    <div class=\"meta\">\n" ++
  "      Job: <code>" ++ job_id ++ "</code> — Folder: <code>" ++ folder_id ++
    "</code> — Generado: " ++ now ++ "\n" ++
  "    </div>\n" ++
  "  </div>\n" ++
  "\n" ++
  "  <h2>Resumen clínico</h2>\n" ++
  "  <div class=\"box\"><p>" ++
    escape_html (PyVal.vStr (final_report.resumen_clinico.getD "")) ++ "</p></div>\n" ++
  "\n" ++
  "  <h2>Diagnóstico presuntivo</h2>\n" ++
  "  <p>" ++ escape_html (PyVal.vStr (final_report.diagnostico_presuntivo.getD "")) ++ "</p>\n" ++
  "\n" ++
  "  <h2>Justificación</h2>\n" ++
  "  <ul>\n" ++
  "    " ++ li (final_report.justificacion.getD []) ++ "\n" ++
  "  </ul>\n" ++
  "\n" ++
  "  <h2>Evaluación de cobertura</h2>\n" ++
  "  <ul>\n" ++
  "    " ++ li (final_report.evaluacion_cobertura.getD []) ++ "\n" ++
  "  </ul>\n" ++
  "\n" ++
  "  <h2>Recomendaciones</h2>\n" ++
  "  <ul>\n" ++
  "    " ++ li (final_report.recomendaciones.getD []) ++ "\n" ++
  "  </ul>\n" ++
  "\n" ++
  "  <h2>Red flags / inconsistencias</h2>\n" ++
  "  <ul>\n" ++
  "    " ++ li (final_report.red_flags.getD []) ++ "\n" ++
  "  </ul>\n" ++
  "\n" ++
  "  <h2>Pendientes de información</h2>\n" ++
  "  <ul>\n" ++
  "    " ++ li (final_report.pendientes.getD []) ++ "\n" ++
  "  </ul>\n" ++
  "\n" ++
  "  <details>\n" ++
  "    <summary class=\"small\">Ver JSON consolidado (debug)</summary>\n" ++
  "    <pre>" ++ escape_html (PyVal.vStr (json_dumps_consolidated consolidated)) ++ "</pre>\n" ++
  "  </details>\n" ++
  "\n" ++
  "  <div class=\"footer small\">\n" ++
  "    Documento generado automáticamente. Validar clínicamente antes de decisiones prestacionales.\n" ++
  "  </div>\n" ++
  "</body>\n" ++
  "</html>"

/-- Modelled from the spec: "HTML rendering: a fixed template populated with
escaped report fields ... plus the consolidated case file embedded ... inside a
collapsible debug block".  The slots receive already-prepared strings; compare
with `build_html_report` to see which injections are escaped. -/
def htmlTemplate (job_id folder_id now resumenE diagE justHtml cobHtml recHtml
    flagsHtml pendHtml debugE : String) : String :=
  htmlHead ++
  "<body>\n" ++
  "  <div class=\"header\">\n" ++
  "    <h1>Informe de Auditoría Médica Automatizada (IA)</h1>\n" ++
  "    <div class=\"meta\">\n" ++
  "      Job: <code>" ++ job_id ++ "</code> — Folder: <code>" ++ folder_id ++
    "</code> — Generado: " ++ now ++ "\n" ++
  "    </div>\n" ++
  "  </div>\n" ++
  "\n" ++
  "  <h2>Resumen clínico</h2>\n" ++
  "  <div class=\"box\"><p>" ++ resumenE ++ "</p></div>\n" ++
  "\n" ++
  "  <h2>Diagnóstico presuntivo</h2>\n" ++
  "  <p>" ++ diagE ++ "</p>\n" ++
  "\n" ++
  "  <h2>Justificación</h2>\n" ++
  "  <ul>\n" ++
  "    " ++ justHtml ++ "\n" ++
  "  </ul>\n" ++
  "\n" ++
  "  <h2>Evaluación de cobertura</h2>\n" ++
  "  <ul>\n" ++
  "    " ++ cobHtml ++ "\n" ++
  "  </ul>\n" ++
  "\n" ++
  "  <h2>Recomendaciones</h2>\n" ++
  "  <ul>\n" ++
  "    " ++ recHtml ++ "\n" ++
  "  </ul>\n" ++
  "\n" ++
  "  <h2>Red flags / inconsistencias</h2>\n" ++
  "  <ul>\n" ++
  "    " ++ flagsHtml ++ "\n" ++
  "  </ul>\n" ++
  "\n" ++
  "  <h2>Pendientes de información</h2>\n" ++
  "  <ul>\n" ++
  "    " ++ pendHtml ++ "\n" ++
  "  </ul>\n" ++
  "\n" ++
  "  <details>\n" ++
  "    <summary class=\"small\">Ver JSON consolidado (debug)</summary>\n" ++
  "    <pre>" ++ debugE ++ "</pre>\n" ++
  "  </details>\n" ++
  "\n" ++
  "  <div class=\"footer small\">\n" ++
  "    Documento generado automáticamente. Validar clínicamente antes de decisiones prestacionales.\n" ++
  "  </div>\n" ++
  "</body>\n" ++
  "</html>"

/-! ### Filesystem model and rasterization (`pdf_to_images`) -/

/-- The local working directory modelled as the set (list) of existing file
paths; directories are not tracked (`os.makedirs` has no observable effect on
the claims). -/
abbrev FS := List String

/-- Embedding of `os.path.exists` over the modelled filesystem. -/
def fsExists : FS → String → Bool
  | [], _ => false
  | q :: rest, p => if q = p then true else fsExists rest p

/-- Models `os.path.join` for the call sites in main.py (plain relative file
names appended to a directory). -/
def pathJoin (dir name : String) : String :=
  if name.startsWith "/" then name
  else if dir = "" then name
  else if dir.endsWith "/" then dir ++ name
  else dir ++ "/" ++ name

/-- Python `str.zfill`: left-pad with zeros up to the requested width, keeping
a leading sign character in front of the padding. -/
def zfill (width : Nat) (s : String) : String :=
  if width ≤ s.length then s
  else
    match s.toList with
    | [] => String.mk (List.replicate width '0')
    | c :: rest =>
      if c == '+' || c == '-' then
        String.mk (c :: (List.replicate (width - s.length) '0' ++ rest))
      else
        String.mk (List.replicate (width - s.length) '0' ++ s.toList)

/-- The image file name for page `i`: `f"{base_name}_{str(i).zfill(5)}.jpg"`. -/
def imageFileName (base_name : String) (i : Nat) : String :=
  base_name ++ "_" ++ zfill 5 (Nat.repr i) ++ ".jpg"

/-- Page numbers `1..n` as produced by `enumerate(pages, start=1)`. -/
def pageIndices (n : Nat) : List Nat := List.range' 1 n

/-- The loop of `pdf_to_images` over the rasterized pages: compute each target
path, save the image only when the file does not already exist, and always
append the path to the result.  Returns the path list, the filesystem after
the run, and the list of paths actually (re)generated. -/
def pdfToImagesGo (out_dir base_name : String) :
    List Nat → List String → FS → List String → (List String × FS × List String)
  | [], acc, fs, writes => (acc, fs, writes)
  | i :: rest, acc, fs, writes =>
    let fpath := pathJoin out_dir (imageFileName base_name i)
    if fsExists fs fpath then
      pdfToImagesGo out_dir base_name rest (acc ++ [fpath]) fs writes
    else
      pdfToImagesGo out_dir base_name rest (acc ++ [fpath]) (fpath :: fs) (writes ++ [fpath])

/-- Embedding of `pdf_to_images` from main.py for a PDF whose
`convert_from_path` call yields `n` pages (the rasterizer is deterministic in
the PDF, so `n` is a function of the input document). -/
def pdf_to_images (n : Nat) (out_dir base_name : String) (fs : FS) :
    List String × FS × List String :=
  pdfToImagesGo out_dir base_name (pageIndices n) [] fs []

/-! ### Per-document pipeline (`process_single_pdf`) -/

/-- Left-to-right scan for `os.path.basename`: reset the accumulator at every
slash, keep the final segment. -/
def basenameGo : List Char → List Char → List Char
  | [], acc => acc
  | c :: rest, acc => if c = '/' then basenameGo rest [] else basenameGo rest (acc ++ [c])

/-- Models `os.path.basename`: the path component after the last slash. -/
def basename (p : String) : String := String.mk (basenameGo p.toList [])

/-- On a reversed character list, drop everything up to and including the
first dot. -/
def afterFirstDot : List Char → List Char
  | [] => []
  | c :: rest => if c = '.' then rest else afterFirstDot rest

/-- Models `os.path.splitext(name)[0]` for the plain file names used here: the
name up to its last dot, or the whole name when it contains no dot. -/
def splitextBase (p : String) : String :=
  if p.toList.contains '.' then String.mk (afterFirstDot p.toList.reverse).reverse else p

/-- Observable external events of the per-document pipeline, in order.
`sleepPacing` stands for `time.sleep(SLEEP_BETWEEN_VISION_CALLS_SEC)` (the
fixed 0.2s delay), `visionCall` for one `gpt_vision_extract_json` request, and
`textCall` for one `gpt_text_extract_json` request. -/
inductive Ev where
  | sleepPacing
  | visionCall (image_path : String)
  | textCall
deriving Repr, DecidableEq

/-- Per-document external outcomes: the pdfplumber text extraction, the
rasterized page count of `convert_from_path`, and the two structured
extraction services; each can raise, modelled by `Except`. -/
structure PdfEnv where
  extractText : Except String String
  pageCount : Except String Nat
  textExtract : Except String JsonVal
  visionExtract : String → Except String JsonVal

/-- The per-page loop of `process_single_pdf` over the image paths: the fixed
pacing delay elapses before every vision call, and each result is appended
with its 1-based page number and the image file's base name. -/
def visionLoop (pe : PdfEnv) : List String → Nat → List PageResult → List Ev →
    Except String (List PageResult × List Ev)
  | [], _, acc, evs => .ok (acc, evs)
  | img_path :: rest, idx, acc, evs =>
    match pe.visionExtract img_path with
    | .error e => .error e
    | .ok page_json =>
        visionLoop pe rest (idx + 1)
          (acc ++ [{ pagina := idx, imagen := basename img_path, resultado_json := page_json }])
          (evs ++ [Ev.sleepPacing, Ev.visionCall img_path])

/-- Embedding of `process_single_pdf` from main.py: extract the embedded text;
when it is meaningful run the text extraction once, otherwise rasterize all
pages into `work_dir/img` and run the vision extraction once per page.
Returns the Document Extraction Result, the filesystem after the run, and the
trace of external events. -/
def process_single_pdf (pe : PdfEnv) (pdf_name work_dir : String) (fs : FS) :
    Except String (DocResult × FS × List Ev) :=
  match pe.extractText with
  | .error e => .error e
  | .ok extracted_text =>
    if pdf_has_meaningful_text extracted_text then
      match pe.textExtract with
      | .error e => .error e
      | .ok extracted_json =>
          .ok (.textoDigital pdf_name extracted_text.length extracted_json, fs, [Ev.textCall])
    else
      match pe.pageCount with
      | .error e => .error e
      | .ok n =>
        let img_dir := pathJoin work_dir "img"
        let base_name := splitextBase pdf_name
        let conv := pdf_to_images n img_dir base_name fs
        match visionLoop pe conv.1 1 [] [] with
        | .error e => .error e
        | .ok (pages_json, evs) =>
            .ok (.visionOcr pdf_name conv.1.length pages_json, conv.2.1, evs)

/-- The paced event trace over a list of page images: the fixed delay
immediately precedes every vision call, hence also separates every successive
pair of calls. -/
def pacedTrace : List String → List Ev
  | [] => []
  | p :: rest => Ev.sleepPacing :: Ev.visionCall p :: pacedTrace rest

/-- The vision-extraction calls of an event trace, in order. -/
def visionCallsOf : List Ev → List String
  | [] => []
  | Ev.visionCall p :: rest => p :: visionCallsOf rest
  | _ :: rest => visionCallsOf rest

/-- A sample per-document environment for a scanned three-page PDF: no
embedded text, three rasterized pages, vision extraction always succeeds. -/
def visionSamplePdfEnv : PdfEnv :=
  { extractText := .ok "", pageCount := .ok 3,
    textExtract := .error "not used", visionExtract := fun _ => .ok ⟨""⟩ }

/-! ### Job store, background job and endpoints -/

/-- A Drive file entry as returned by the list call (fields id and name; the
requested mimeType and size fields are never read). -/
structure PdfFileMeta where
  id : String
  name : String
deriving Repr, DecidableEq

/-- The result dict of one Drive upload (fields id, name, webViewLink; the
view link may be absent, it is read with `.get`). -/
structure UploadResult where
  id : String
  name : String
  webViewLink : Option String
deriving Repr, DecidableEq

/-- One entry of the outputs dict recorded on success. -/
structure OutputEntry where
  id : String
  name : String
  url : Option String
deriving Repr, DecidableEq

/-- The outputs dict recorded on success: exactly the three keys
json / html / pdf. -/
structure Outputs where
  json : OutputEntry
  html : OutputEntry
  pdf : OutputEntry
deriving Repr, DecidableEq

/-- A Job Record of the in-memory store `jobs`; dict keys that are absent
until assigned are modelled as `Option` fields defaulting to `none`. -/
structure Job where
  status : String
  folder_id : String
  started_at : Option String := none
  documentos_encontrados : Option Nat := none
  archivos : Option (List String) := none
  output_folder_id : Option String := none
  output_folder_name : Option String := none
  status_detalle : Option String := none
  documentos_procesados : Option Nat := none
  finished_at : Option String := none
  outputs : Option Outputs := none
  resumen : Option String := none
  error : Option String := none
deriving Repr, DecidableEq

/-- External-world outcomes for one background job run: the datetime readings,
the Drive operations, the per-file sub-environments, the final-report call and
the three uploads.  Every fallible operation is an `Except` whose error value
carries `str(e)` of the raised exception. -/
structure Env where
  nowIso : String
  stamp : String
  nowHuman : String
  tmpdir : String
  conectar : Except String Unit
  listPdfs : Except String (List PdfFileMeta)
  createSubfolder : String → Except String PdfFileMeta
  download : PdfFileMeta → Except String Unit
  pdfEnv : PdfFileMeta → PdfEnv
  finalReport : Except String FinalReport
  uploadJson : Except String UploadResult
  uploadHtml : Except String UploadResult
  uploadPdf : Except String UploadResult

/-- One assignment `jobs[job_id]["status"] = s`, instrumented with the ordered
trace of status values written so far. -/
def setStatus (s : String) (j : Job) (tr : List String) : Job × List String :=
  ({ j with status := s }, tr ++ [s])

/-- One entry of the outputs dict, built from an upload result exactly as in
step 9 of `procesar_drive_job`. -/
def mkOutputEntry (u : UploadResult) : OutputEntry :=
  { id := u.id, name := u.name, url := u.webViewLink }

/-- The outputs dict of step 9 of `procesar_drive_job`. -/
def mkOutputs (uj uh up : UploadResult) : Outputs :=
  { json := mkOutputEntry uj, html := mkOutputEntry uh, pdf := mkOutputEntry up }

/-- The per-file loop of `procesar_drive_job` (download then process, with the
two `status_detalle` progress writes); an exception propagates together with
the job record as mutated so far. -/
def processLoop (env : Env) : List PdfFileMeta → Nat → Nat → Job → List DocResult → FS →
    Except (String × Job) (Job × List DocResult × FS)
  | [], _, _, j, acc, fs => .ok (j, acc, fs)
  | f :: rest, i, total, j, acc, fs =>
    let j1 := { j with status_detalle := some ("Descargando " ++ Nat.repr i ++ "/" ++ Nat.repr total ++ ": " ++ f.name) }
    match env.download f with
    | .error e => .error (e, j1)
    | .ok _ =>
      let j2 := { j1 with status_detalle := some ("Procesando " ++ Nat.repr i ++ "/" ++ Nat.repr total ++ ": " ++ f.name) }
      match process_single_pdf (env.pdfEnv f) f.name env.tmpdir fs with
      | .error e => .error (e, j2)
      | .ok (r, fs2, _evs) => processLoop env rest (i + 1) total j2 (acc ++ [r]) fs2

/-- The try block of `procesar_drive_job` (steps 1 to 9).  On an exception the
message and the job record as mutated so far are returned; on success the job
record carries status "finalizado", the three outputs and the summary.  The
serialized result JSON and the generated PDF report do not touch the job
record and are uploaded through the environment; the rendered HTML is kept as
an explicit (pure) stage. -/
def tryBody (env : Env) (job_id folder_id : String) (j : Job) (tr : List String) :
    Except (String × Job × List String) (Job × List String) :=
  match env.conectar with
  | .error e => .error (e, j, tr)
  | .ok _ =>
  match env.listPdfs with
  | .error e => .error (e, j, tr)
  | .ok pdfs =>
  let j1 := { j with documentos_encontrados := some pdfs.length,
                     archivos := some (pdfs.map PdfFileMeta.name) }
  match env.createSubfolder ("AUDITORIA_" ++ env.stamp) with
  | .error e => .error (e, j1, tr)
  | .ok out_folder =>
  let j2 := { j1 with output_folder_id := some out_folder.id,
                      output_folder_name := some ("AUDITORIA_" ++ env.stamp) }
  match processLoop env pdfs 1 pdfs.length j2 [] [] with
  | .error (e, j3) => .error (e, j3, tr)
  | .ok (j3, doc_results, _fs) =>
  let j4 := { j3 with status_detalle := some "Generando informe final (GPT)" }
  match env.finalReport with
  | .error e => .error (e, j4, tr)
  | .ok final_report =>
  let _html_str := build_html_report job_id folder_id env.nowHuman final_report
    (consolidate_documents doc_results)
  let j5 := { j4 with status_detalle := some "Subiendo resultados a Drive" }
  match env.uploadJson with
  | .error e => .error (e, j5, tr)
  | .ok up_json =>
  match env.uploadHtml with
  | .error e => .error (e, j5, tr)
  | .ok up_html =>
  match env.uploadPdf with
  | .error e => .error (e, j5, tr)
  | .ok up_pdf =>
  let stF := setStatus "finalizado" j5 tr
  let j6 := { stF.1 with finished_at := some env.nowIso,
                         documentos_procesados := some doc_results.length,
                         outputs := some (mkOutputs up_json up_html up_pdf),
                         resumen := some (final_report.resumen_clinico.getD "") }
  .ok (j6, stF.2)

/-- Embedding of `procesar_drive_job`: set status "procesando" and
`started_at`, run the try block, and on an exception apply the except handler
(status "error", the exception message recorded verbatim, `finished_at`).
Returns the final job record together with the ordered status-write trace. -/
def procesar_drive_job (env : Env) (job_id folder_id : String) (j : Job) :
    Job × List String :=
  let st := setStatus "procesando" j []
  let j1 := { st.1 with started_at := some env.nowIso }
  match tryBody env job_id folder_id j1 st.2 with
  | .ok (j2, tr2) => (j2, tr2)
  | .error (e, j2, tr2) =>
      let st3 := setStatus "error" j2 tr2
      ({ st3.1 with error := some e, finished_at := some env.nowIso }, st3.2)

/-- The job record created by `POST /procesar`. -/
def initialJob (folder_id : String) : Job :=
  { status := "en_cola", folder_id := folder_id }

/-- The HTTP response body of `POST /procesar`. -/
structure ProcesarResponse where
  status : String
  job_id : String
deriving Repr, DecidableEq

/-- Embedding of `iniciar_proceso`: store the fresh queued record under the
generated identifier (newest binding first, as dict assignment) and answer
with the identifier and the fixed string "en_proceso"; the scheduled
background task is modelled separately by `procesar_drive_job`. -/
def iniciar_proceso (store : List (String × Job)) (new_job_id folder_id : String) :
    List (String × Job) × ProcesarResponse :=
  ((new_job_id, initialJob folder_id) :: store,
   { status := "en_proceso", job_id := new_job_id })

/-- The response of `GET /estado/{job_id}`: the error payload for an unknown
identifier, or the full current record. -/
inductive EstadoResponse where
  | errorPayload (msg : String)
  | record (j : Job)
deriving Repr, DecidableEq

/-- Embedding of `consultar_estado`. -/
def consultar_estado (store : List (String × Job)) (job_id : String) : EstadoResponse :=
  match store.lookup job_id with
  | none => .errorPayload "Job no encontrado"
  | some j => .record j

/-- The status sequence a job record goes through: the creation status written
by `iniciar_proceso` followed by every status written by the background run. -/
def jobStatusTrace (env : Env) (job_id folder_id : String) : List String :=
  (initialJob folder_id).status ::
    (procesar_drive_job env job_id folder_id (initialJob folder_id)).2

/-- Terminal statuses of the job state machine. -/
def isTerminalStatus (s : String) : Bool := s == "finalizado" || s == "error"

/-- The legal transitions of the job state machine stated by the spec
(queued to processing, processing to a terminal state). -/
def legalStepB (a b : String) : Bool :=
  (a == "en_cola" && b == "procesando") ||
  (a == "procesando" && (b == "finalizado" || b == "error"))

/-- A status sequence moves only along legal transitions. -/
def legalPath : List String → Bool
  | a :: b :: rest => legalStepB a b && legalPath (b :: rest)
  | _ => true

/-- A per-document environment whose operations all succeed trivially (no
embedded text, zero pages). -/
def basicPdfEnv : PdfEnv :=
  { extractText := .ok "", pageCount := .ok 0,
    textExtract := .ok ⟨""⟩, visionExtract := fun _ => .ok ⟨""⟩ }

/-- An upload result sample. -/
def sampleUpload (i : String) : UploadResult :=
  { id := i, name := i, webViewLink := some ("https://drive/" ++ i) }

/-- A job environment in which every external operation succeeds and the
final report has no clinical-summary field. -/
def baseOkEnv : Env :=
  { nowIso := "2024-01-01T00:00:00", stamp := "20240101_000000",
    nowHuman := "2024-01-01 00:00:00", tmpdir := "tmp",
    conectar := .ok (), listPdfs := .ok [],
    createSubfolder := fun nm => .ok { id := "folder-out", name := nm },
    download := fun _ => .ok (),
    pdfEnv := fun _ => basicPdfEnv,
    finalReport := .ok emptyReport,
    uploadJson := .ok (sampleUpload "json-1"),
    uploadHtml := .ok (sampleUpload "html-1"),
    uploadPdf := .ok (sampleUpload "pdf-1") }

/-- A fully successful job environment whose final report carries a non-empty
clinical summary. -/
def okEnvWithSummary : Env :=
  { baseOkEnv with
      finalReport := .ok { emptyReport with resumen_clinico := some "Paciente estable." } }

theorem run3_imp_length {l : List Char} {pre suf : List Char} {a b c : Char}
    (h : l = pre ++ a :: b :: c :: suf) : 3 ≤ l.length := by
  subst h
  simp [List.length_append]
  omega

theorem containsLetterRun3_iff (l : List Char) :
    containsLetterRun3 l = true ↔ HasLetterRun3 l := by
  induction l with
  | nil =>
    constructor
    · intro h; simp [containsLetterRun3] at h
    · rintro ⟨pre, a, b, c, suf, h, -, -, -⟩
      have := run3_imp_length h
      simp at this
  | cons x tl ih =>
    cases tl with
    | nil =>
      constructor
      · intro h; simp [containsLetterRun3] at h
      · rintro ⟨pre, a, b, c, suf, h, -, -, -⟩
        have := run3_imp_length h
        simp at this
    | cons y tl2 =>
      cases tl2 with
      | nil =>
        constructor
        · intro h; simp [containsLetterRun3] at h
        · rintro ⟨pre, a, b, c, suf, h, -, -, -⟩
          have := run3_imp_length h
          simp at this
      | cons z tl3 =>
        constructor
        · intro h
          rw [containsLetterRun3] at h
          rcases Bool.or_eq_true_iff.mp h with h1 | h2
          · rcases Bool.and_eq_true_iff.mp h1 with ⟨h12, hc⟩
            rcases Bool.and_eq_true_iff.mp h12 with ⟨ha, hb⟩
            exact ⟨[], x, y, z, tl3, rfl, ha, hb, hc⟩
          · rcases ih.mp h2 with ⟨pre, a, b, c, suf, heq, ha, hb, hc⟩
            exact ⟨x :: pre, a, b, c, suf, by rw [heq]; rfl, ha, hb, hc⟩
        · rintro ⟨pre, a, b, c, suf, heq, ha, hb, hc⟩
          rw [containsLetterRun3]
          cases pre with
          | nil =>
            simp at heq
            obtain ⟨hx, hy, hz, -⟩ := heq
            subst hx; subst hy; subst hz
            rw [ha, hb, hc]
            simp
          | cons p pre2 =>
            simp at heq
            obtain ⟨-, htl⟩ := heq
            have : containsLetterRun3 (y :: z :: tl3) = true :=
              ih.mpr ⟨pre2, a, b, c, suf, htl, ha, hb, hc⟩
            rw [this]
            simp

/-- Claim C1: `pdf_has_meaningful_text` returns true iff the input has at least
`MIN_CHARS_TEXT` (150) characters and contains a run of three consecutive
characters of the regex letter class; in particular every shorter string and
every string without such letters (numeric, symbolic, empty, whitespace-only)
yields false. -/
theorem pdf_has_meaningful_text_spec (s : String) :
    (pdf_has_meaningful_text s = true ↔
      (MIN_CHARS_TEXT ≤ s.length ∧ HasLetterRun3 s.toList)) ∧
    (s.length < MIN_CHARS_TEXT → pdf_has_meaningful_text s = false) ∧
    ((∀ c ∈ s.toList, isSpanishLetter c = false) → pdf_has_meaningful_text s = false) := by
  refine ⟨?_, ?_, ?_⟩
  · unfold pdf_has_meaningful_text
    split_ifs with h0 h1
    · constructor
      · intro h; cases h
      · rintro ⟨hlen, -⟩
        unfold MIN_CHARS_TEXT at hlen
        omega
    · constructor
      · intro h; cases h
      · rintro ⟨hlen, -⟩
        omega
    · rw [containsLetterRun3_iff]
      constructor
      · intro h; exact ⟨by omega, h⟩
      · rintro ⟨-, h⟩; exact h
  · intro h
    unfold pdf_has_meaningful_text
    split_ifs with h0
    · rfl
    · rfl
  · intro hall
    unfold pdf_has_meaningful_text
    split_ifs with h0 h1
    · rfl
    · rfl
    · by_contra hne
      have htrue : containsLetterRun3 s.toList = true := by
        cases hcl : containsLetterRun3 s.toList
        · exact absurd hcl hne
        · rfl
      rcases (containsLetterRun3_iff s.toList).mp htrue with ⟨pre, a, b, c, suf, heq, ha, -, -⟩
      have hmem : a ∈ s.toList := by
        rw [heq]; simp
      rw [hall a hmem] at ha
      cases ha

theorem pdf_has_meaningful_text_spec_witness :
    pdf_has_meaningful_text (String.mk ('a' :: 'b' :: 'c' :: List.replicate 147 'x')) = true ∧
    pdf_has_meaningful_text "12" = false ∧
    pdf_has_meaningful_text digits160 = false :=
  ⟨(pdf_has_meaningful_text_spec _).1.mpr
      ⟨by decide, [], 'a', 'b', 'c', List.replicate 147 'x', rfl, by decide, by decide, by decide⟩,
   (pdf_has_meaningful_text_spec _).2.1 (by decide),
   (pdf_has_meaningful_text_spec _).2.2 (by decide)⟩

theorem mem_replaceChar {c old : Char} {new l : List Char}
    (h : c ∈ replaceChar old new l) : c ∈ new ∨ (c ∈ l ∧ c ≠ old) := by
  induction l with
  | nil => simp [replaceChar] at h
  | cons x rest ih =>
    rw [replaceChar] at h
    rcases List.mem_append.mp h with h1 | h2
    · split_ifs at h1 with hx
      · exact Or.inl h1
      · simp at h1
        subst h1
        exact Or.inr ⟨List.mem_cons_self _ _, hx⟩
    · rcases ih h2 with h3 | ⟨h3, h4⟩
      · exact Or.inl h3
      · exact Or.inr ⟨List.mem_cons_of_mem _ h3, h4⟩

theorem escapeChars_no_lt (l : List Char) : '<' ∉ escapeChars l := by
  intro h
  unfold escapeChars at h
  rcases mem_replaceChar h with h1 | ⟨h, -⟩
  · simp [entApos] at h1
  rcases mem_replaceChar h with h1 | ⟨h, -⟩
  · simp [entQuot] at h1
  rcases mem_replaceChar h with h1 | ⟨h, -⟩
  · simp [entGt] at h1
  rcases mem_replaceChar h with h1 | ⟨-, hne⟩
  · simp [entLt] at h1
  · exact hne rfl

theorem escapeChars_no_gt (l : List Char) : '>' ∉ escapeChars l := by
  intro h
  unfold escapeChars at h
  rcases mem_replaceChar h with h1 | ⟨h, -⟩
  · simp [entApos] at h1
  rcases mem_replaceChar h with h1 | ⟨h, -⟩
  · simp [entQuot] at h1
  rcases mem_replaceChar h with h1 | ⟨-, hne⟩
  · simp [entGt] at h1
  · exact hne rfl

theorem escapeChars_no_quote (l : List Char) : quoteChar ∉ escapeChars l := by
  intro h
  unfold escapeChars at h
  rcases mem_replaceChar h with h1 | ⟨h, -⟩
  · simp [entApos, quoteChar] at h1
  rcases mem_replaceChar h with h1 | ⟨-, hne⟩
  · simp [entQuot, quoteChar] at h1
  · exact hne rfl

theorem escapeChars_no_apos (l : List Char) : aposChar ∉ escapeChars l := by
  intro h
  unfold escapeChars at h
  rcases mem_replaceChar h with h1 | ⟨-, hne⟩
  · simp [entApos, aposChar] at h1
  · exact hne rfl

/-- Claim C4 counterexample: the folder identifier is injected into the
rendered HTML without escaping, so an injected field value containing
`<script>` appears verbatim in the output document — the claim that every
injected field is escaped fails at this input. -/
theorem build_html_report_raw_folder_injection :
    strContains "<script>alert(1)</script>"
      (build_html_report "job-1" "<script>alert(1)</script>" "2024-01-01 00:00:00"
        emptyReport (consolidate_documents [])) = true := by
  decide

/-- Claim C4 (amended): the rendered HTML is the fixed template where the
report fields (clinical summary, presumptive diagnosis, the five list
sections item-wise, and the consolidated debug JSON) are injected through
`escape_html`, whose output contains no `<`, `>`, double quote or apostrophe
and maps the five special characters to their entities; the job identifier,
folder identifier and generation timestamp are injected without escaping. -/
theorem build_html_report_escaping (job_id folder_id now : String)
    (fr : FinalReport) (cons : Consolidated) :
    build_html_report job_id folder_id now fr cons =
      htmlTemplate job_id folder_id now
        (escape_html (PyVal.vStr (fr.resumen_clinico.getD "")))
        (escape_html (PyVal.vStr (fr.diagnostico_presuntivo.getD "")))
        (li (fr.justificacion.getD []))
        (li (fr.evaluacion_cobertura.getD []))
        (li (fr.recomendaciones.getD []))
        (li (fr.red_flags.getD []))
        (li (fr.pendientes.getD []))
        (escape_html (PyVal.vStr (json_dumps_consolidated cons))) ∧
    (∀ s : String,
      '<' ∉ (escapeStr s).toList ∧ '>' ∉ (escapeStr s).toList ∧
      quoteChar ∉ (escapeStr s).toList ∧ aposChar ∉ (escapeStr s).toList) ∧
    escapeStr (String.mk ['&', '<', '>', quoteChar, aposChar]) = "&amp;&lt;&gt;&quot;&#039;" := by
  refine ⟨rfl, ?_, by decide⟩
  intro s
  exact ⟨escapeChars_no_lt _, escapeChars_no_gt _, escapeChars_no_quote _, escapeChars_no_apos _⟩

/-- Claim C10: `escape_html` is total over the modelled Python values; `None`
yields the empty string and any other value is converted with `str()` and then
escaped, so it never fails. -/
theorem escape_html_total (v : PyVal) :
    escape_html PyVal.vNone = "" ∧
    (v ≠ PyVal.vNone → escape_html v = escapeStr (pyStr v)) := by
  refine ⟨rfl, fun hv => ?_⟩
  cases v with
  | vNone => exact absurd rfl hv
  | vStr s => rfl
  | vInt n => rfl
  | vBool b => rfl

theorem escape_html_total_witness :
    escape_html PyVal.vNone = "" ∧
    escape_html (PyVal.vInt (-7)) = escapeStr (pyStr (PyVal.vInt (-7))) :=
  ⟨(escape_html_total (PyVal.vInt (-7))).1,
   (escape_html_total (PyVal.vInt (-7))).2 (by decide)⟩

theorem fsExists_iff (fs : FS) (p : String) : fsExists fs p = true ↔ p ∈ fs := by
  induction fs with
  | nil => simp [fsExists]
  | cons q rest ih =>
    rw [fsExists]
    split_ifs with hq
    · subst hq; simp
    · rw [ih]
      constructor
      · exact fun h => List.mem_cons_of_mem _ h
      · intro h
        rcases List.mem_cons.mp h with h1 | h2
        · exact absurd h1.symm hq
        · exact h2

theorem pdfToImagesGo_paths (out_dir base_name : String) (idxs : List Nat)
    (acc : List String) (fs : FS) (w : List String) :
    (pdfToImagesGo out_dir base_name idxs acc fs w).1 =
      acc ++ idxs.map (fun i => pathJoin out_dir (imageFileName base_name i)) := by
  induction idxs generalizing acc fs w with
  | nil => simp [pdfToImagesGo]
  | cons i rest ih =>
    rw [pdfToImagesGo]
    split_ifs with hex
    · rw [ih]; simp
    · rw [ih]; simp

theorem pdfToImagesGo_fs_mono (out_dir base_name : String) (idxs : List Nat)
    (acc : List String) (fs : FS) (w : List String) (p : String) (hp : p ∈ fs) :
    p ∈ (pdfToImagesGo out_dir base_name idxs acc fs w).2.1 := by
  induction idxs generalizing acc fs w with
  | nil => simpa [pdfToImagesGo] using hp
  | cons i rest ih =>
    rw [pdfToImagesGo]
    split_ifs with hex
    · exact ih _ _ _ hp
    · exact ih _ _ _ (List.mem_cons_of_mem _ hp)

theorem pdfToImagesGo_all_exist (out_dir base_name : String) (idxs : List Nat)
    (acc : List String) (fs : FS) (w : List String) (i : Nat) :
    i ∈ idxs →
      pathJoin out_dir (imageFileName base_name i) ∈
        (pdfToImagesGo out_dir base_name idxs acc fs w).2.1 := by
  induction idxs generalizing acc fs w with
  | nil => intro hi; cases hi
  | cons j rest ih =>
    intro hi
    rw [pdfToImagesGo]
    rcases List.mem_cons.mp hi with hij | hirest
    · subst hij
      split_ifs with hex
      · exact pdfToImagesGo_fs_mono _ _ _ _ _ _ _ ((fsExists_iff _ _).mp hex)
      · exact pdfToImagesGo_fs_mono _ _ _ _ _ _ _ (List.mem_cons_self _ _)
    · split_ifs with hex
      · exact ih _ _ _ hirest
      · exact ih _ _ _ hirest

theorem pdfToImagesGo_noop (out_dir base_name : String) (idxs : List Nat)
    (acc : List String) (fs : FS) (w : List String) :
    (∀ i ∈ idxs, pathJoin out_dir (imageFileName base_name i) ∈ fs) →
    pdfToImagesGo out_dir base_name idxs acc fs w =
      (acc ++ idxs.map (fun i => pathJoin out_dir (imageFileName base_name i)), fs, w) := by
  induction idxs generalizing acc with
  | nil => intro; simp [pdfToImagesGo]
  | cons i rest ih =>
    intro hall
    rw [pdfToImagesGo]
    have hex : fsExists fs (pathJoin out_dir (imageFileName base_name i)) = true :=
      (fsExists_iff _ _).mpr (hall i (List.mem_cons_self _ _))
    rw [if_pos hex, ih _ (fun j hj => hall j (List.mem_cons_of_mem _ hj))]
    simp

/-- Claim C6: `pdf_to_images` is idempotent — it returns the ordered list of
per-page image paths (zero-padded by page index, in page order), and a second
run over the resulting working directory returns the same list, writes no
file, and leaves the filesystem unchanged. -/
theorem pdf_to_images_idempotent (n : Nat) (out_dir base_name : String) (fs : FS) :
    (pdf_to_images n out_dir base_name fs).1 =
      (pageIndices n).map (fun i => pathJoin out_dir (imageFileName base_name i)) ∧
    (pdf_to_images n out_dir base_name (pdf_to_images n out_dir base_name fs).2.1).1 =
      (pdf_to_images n out_dir base_name fs).1 ∧
    (pdf_to_images n out_dir base_name (pdf_to_images n out_dir base_name fs).2.1).2.2 = [] ∧
    (pdf_to_images n out_dir base_name (pdf_to_images n out_dir base_name fs).2.1).2.1 =
      (pdf_to_images n out_dir base_name fs).2.1 := by
  have hall : ∀ i ∈ pageIndices n,
      pathJoin out_dir (imageFileName base_name i) ∈ (pdf_to_images n out_dir base_name fs).2.1 :=
    fun i hi => pdfToImagesGo_all_exist out_dir base_name (pageIndices n) [] fs [] i hi
  have hfirst : (pdf_to_images n out_dir base_name fs).1 =
      (pageIndices n).map (fun i => pathJoin out_dir (imageFileName base_name i)) := by
    have h := pdfToImagesGo_paths out_dir base_name (pageIndices n) [] fs []
    simpa [pdf_to_images] using h
  have hsecond : pdf_to_images n out_dir base_name (pdf_to_images n out_dir base_name fs).2.1 =
      ((pageIndices n).map (fun i => pathJoin out_dir (imageFileName base_name i)),
        (pdf_to_images n out_dir base_name fs).2.1, []) := by
    have h := pdfToImagesGo_noop out_dir base_name (pageIndices n) []
      (pdf_to_images n out_dir base_name fs).2.1 [] hall
    simpa [pdf_to_images] using h
  refine ⟨hfirst, ?_, ?_, ?_⟩
  · rw [hsecond, hfirst]
  · rw [hsecond]
  · rw [hsecond]

theorem visionCallsOf_pacedTrace (ps : List String) :
    visionCallsOf (pacedTrace ps) = ps := by
  induction ps with
  | nil => rfl
  | cons p rest ih => simp [pacedTrace, visionCallsOf, ih]

theorem visionLoop_spec (pe : PdfEnv) (ps : List String) :
    ∀ (idx : Nat) (acc : List PageResult) (evs : List Ev),
      (∀ p ∈ ps, ∃ jv, pe.visionExtract p = .ok jv) →
      ∃ pages,
        visionLoop pe ps idx acc evs = .ok (acc ++ pages, evs ++ pacedTrace ps) ∧
        pages.map PageResult.pagina = List.range' idx ps.length ∧
        pages.map PageResult.imagen = ps.map basename := by
  induction ps with
  | nil =>
    intro idx acc evs h
    exact ⟨[], by simp [visionLoop, pacedTrace], by simp, by simp⟩
  | cons p rest ih =>
    intro idx acc evs h
    obtain ⟨jv, hjv⟩ := h p (List.mem_cons_self _ _)
    obtain ⟨pages, hrun, hpag, himg⟩ :=
      ih (idx + 1)
        (acc ++ [{ pagina := idx, imagen := basename p, resultado_json := jv }])
        (evs ++ [Ev.sleepPacing, Ev.visionCall p])
        (fun q hq => h q (List.mem_cons_of_mem _ hq))
    refine ⟨{ pagina := idx, imagen := basename p, resultado_json := jv } :: pages, ?_, ?_, ?_⟩
    · have hstep : visionLoop pe (p :: rest) idx acc evs =
          visionLoop pe rest (idx + 1)
            (acc ++ [{ pagina := idx, imagen := basename p, resultado_json := jv }])
            (evs ++ [Ev.sleepPacing, Ev.visionCall p]) := by
        rw [visionLoop, hjv]
      rw [hstep, hrun]
      simp [pacedTrace, List.append_assoc]
    · rw [List.map_cons, hpag]
      rw [List.length_cons, List.range'_succ]
    · rw [List.map_cons, himg, List.map_cons]

/-- Claim C5: for every PDF without meaningful embedded text that rasterizes
to `n` pages (and whose per-page extraction calls succeed), the per-document
pipeline issues exactly `n` vision-extraction calls, one per page in ascending
page order, each preceded by the fixed pacing delay, and returns a result
tagged `vision_ocr` whose `paginas` field equals `n` and whose per-page result
list is in page order. -/
theorem process_single_pdf_vision_spec (pe : PdfEnv) (pdf_name work_dir : String)
    (fs : FS) (t : String) (n : Nat)
    (htext : pe.extractText = .ok t)
    (hmean : pdf_has_meaningful_text t = false)
    (hpages : pe.pageCount = .ok n)
    (hvis : ∀ p, ∃ jv, pe.visionExtract p = .ok jv) :
    ∃ pages evs fs2,
      process_single_pdf pe pdf_name work_dir fs =
        .ok (DocResult.visionOcr pdf_name n pages, fs2, evs) ∧
      pages.map PageResult.pagina = pageIndices n ∧
      evs = pacedTrace ((pageIndices n).map
        (fun i => pathJoin (pathJoin work_dir "img") (imageFileName (splitextBase pdf_name) i))) ∧
      visionCallsOf evs = (pageIndices n).map
        (fun i => pathJoin (pathJoin work_dir "img") (imageFileName (splitextBase pdf_name) i)) ∧
      (visionCallsOf evs).length = n := by
  have hpaths : (pdf_to_images n (pathJoin work_dir "img") (splitextBase pdf_name) fs).1 =
      (pageIndices n).map
        (fun i => pathJoin (pathJoin work_dir "img") (imageFileName (splitextBase pdf_name) i)) := by
    have h := pdfToImagesGo_paths (pathJoin work_dir "img") (splitextBase pdf_name)
      (pageIndices n) [] fs []
    simpa [pdf_to_images] using h
  have hlen : ((pageIndices n).map
      (fun i => pathJoin (pathJoin work_dir "img") (imageFileName (splitextBase pdf_name) i))).length
        = n := by
    simp [pageIndices]
  obtain ⟨pages, hrun, hpag, -⟩ :=
    visionLoop_spec pe (pdf_to_images n (pathJoin work_dir "img") (splitextBase pdf_name) fs).1
      1 [] [] (fun p _ => hvis p)
  refine ⟨pages, pacedTrace ((pageIndices n).map
      (fun i => pathJoin (pathJoin work_dir "img") (imageFileName (splitextBase pdf_name) i))),
    (pdf_to_images n (pathJoin work_dir "img") (splitextBase pdf_name) fs).2.1, ?_, ?_, rfl, ?_, ?_⟩
  · simp only [process_single_pdf, htext, hmean, Bool.false_eq_true, if_false, hpages]
    rw [hrun]
    simp [hpaths, hlen]
  · rw [hpag, hpaths, hlen]
    rfl
  · rw [visionCallsOf_pacedTrace]
  · rw [visionCallsOf_pacedTrace, hlen]

theorem process_single_pdf_vision_spec_witness :
    ∃ pages evs fs2,
      process_single_pdf visionSamplePdfEnv "scan.pdf" "tmp" [] =
        .ok (DocResult.visionOcr "scan.pdf" 3 pages, fs2, evs) ∧
      pages.map PageResult.pagina = pageIndices 3 ∧
      evs = pacedTrace ((pageIndices 3).map
        (fun i => pathJoin (pathJoin "tmp" "img") (imageFileName (splitextBase "scan.pdf") i))) ∧
      visionCallsOf evs = (pageIndices 3).map
        (fun i => pathJoin (pathJoin "tmp" "img") (imageFileName (splitextBase "scan.pdf") i)) ∧
      (visionCallsOf evs).length = 3 :=
  process_single_pdf_vision_spec visionSamplePdfEnv "scan.pdf" "tmp" [] "" 3
    rfl (by decide) rfl (fun p => ⟨⟨""⟩, rfl⟩)

theorem processLoop_preserves (env : Env) (files : List PdfFileMeta) :
    ∀ (i total : Nat) (j : Job) (acc : List DocResult) (fs : FS),
      (∀ e j2, processLoop env files i total j acc fs = .error (e, j2) →
        j2.status = j.status ∧ j2.outputs = j.outputs ∧ j2.resumen = j.resumen) ∧
      (∀ j2 docs fs2, processLoop env files i total j acc fs = .ok (j2, docs, fs2) →
        j2.status = j.status ∧ j2.outputs = j.outputs ∧ j2.resumen = j.resumen) := by
  induction files with
  | nil =>
    intro i total j acc fs
    constructor
    · intro e j2 h
      simp [processLoop] at h
    · intro j2 docs fs2 h
      simp only [processLoop, Except.ok.injEq, Prod.mk.injEq] at h
      obtain ⟨h1, -⟩ := h
      rw [← h1]
      exact ⟨rfl, rfl, rfl⟩
  | cons f rest ih =>
    intro i total j acc fs
    constructor
    · intro e j2 h
      simp only [processLoop] at h
      split at h
      · simp only [Except.error.injEq, Prod.mk.injEq] at h
        obtain ⟨-, h2⟩ := h
        rw [← h2]
        exact ⟨rfl, rfl, rfl⟩
      · split at h
        · simp only [Except.error.injEq, Prod.mk.injEq] at h
          obtain ⟨-, h2⟩ := h
          rw [← h2]
          exact ⟨rfl, rfl, rfl⟩
        · rename_i r fs2 evs2 heq2
          exact (ih (i + 1) total
            { j with status_detalle := some ("Procesando " ++ Nat.repr i ++ "/" ++ Nat.repr total ++ ": " ++ f.name) }
            (acc ++ [r]) fs2).1 e j2 h
    · intro j2 docs fs2 h
      simp only [processLoop] at h
      split at h
      · exact absurd h (by simp)
      · split at h
        · exact absurd h (by simp)
        · rename_i r fsy evs2 heq2
          exact (ih (i + 1) total
            { j with status_detalle := some ("Procesando " ++ Nat.repr i ++ "/" ++ Nat.repr total ++ ": " ++ f.name) }
            (acc ++ [r]) fsy).2 j2 docs fs2 h

theorem tryBody_error_inv (env : Env) (job_id folder_id : String) (j : Job)
    (tr : List String) (e : String) (j2 : Job) (tr2 : List String)
    (h : tryBody env job_id folder_id j tr = .error (e, j2, tr2)) :
    tr2 = tr ∧ j2.status = j.status ∧ j2.outputs = j.outputs := by
  simp only [tryBody] at h
  cases hc : env.conectar with
  | error e0 =>
    simp only [hc, Except.error.injEq, Prod.mk.injEq] at h
    obtain ⟨-, hj, htr⟩ := h
    rw [← hj, ← htr]
    exact ⟨rfl, rfl, rfl⟩
  | ok u =>
  simp only [hc] at h
  cases hl : env.listPdfs with
  | error e0 =>
    simp only [hl, Except.error.injEq, Prod.mk.injEq] at h
    obtain ⟨-, hj, htr⟩ := h
    rw [← hj, ← htr]
    exact ⟨rfl, rfl, rfl⟩
  | ok pdfs =>
  simp only [hl] at h
  cases hs : env.createSubfolder ("AUDITORIA_" ++ env.stamp) with
  | error e0 =>
    simp only [hs, Except.error.injEq, Prod.mk.injEq] at h
    obtain ⟨-, hj, htr⟩ := h
    rw [← hj, ← htr]
    exact ⟨rfl, rfl, rfl⟩
  | ok out_folder =>
  simp only [hs] at h
  split at h
  · rename_i e0 j3 heq
    simp only [Except.error.injEq, Prod.mk.injEq] at h
    obtain ⟨-, hj, htr⟩ := h
    have hpres := (processLoop_preserves env pdfs 1 pdfs.length _ [] []).1 e0 j3 heq
    rw [← hj, ← htr]
    exact ⟨rfl, hpres.1, hpres.2.1⟩
  · rename_i j3 docs fsx heq
    have hpres := (processLoop_preserves env pdfs 1 pdfs.length _ [] []).2 j3 docs fsx heq
    cases hf : env.finalReport with
    | error e0 =>
      simp only [hf, Except.error.injEq, Prod.mk.injEq] at h
      obtain ⟨-, hj, htr⟩ := h
      rw [← hj, ← htr]
      exact ⟨rfl, hpres.1, hpres.2.1⟩
    | ok fr =>
    simp only [hf] at h
    cases hu1 : env.uploadJson with
    | error e0 =>
      simp only [hu1, Except.error.injEq, Prod.mk.injEq] at h
      obtain ⟨-, hj, htr⟩ := h
      rw [← hj, ← htr]
      exact ⟨rfl, hpres.1, hpres.2.1⟩
    | ok uj =>
    simp only [hu1] at h
    cases hu2 : env.uploadHtml with
    | error e0 =>
      simp only [hu2, Except.error.injEq, Prod.mk.injEq] at h
      obtain ⟨-, hj, htr⟩ := h
      rw [← hj, ← htr]
      exact ⟨rfl, hpres.1, hpres.2.1⟩
    | ok uh =>
    simp only [hu2] at h
    cases hu3 : env.uploadPdf with
    | error e0 =>
      simp only [hu3, Except.error.injEq, Prod.mk.injEq] at h
      obtain ⟨-, hj, htr⟩ := h
      rw [← hj, ← htr]
      exact ⟨rfl, hpres.1, hpres.2.1⟩
    | ok up =>
    simp [hu3] at h

theorem tryBody_ok_inv (env : Env) (job_id folder_id : String) (j : Job)
    (tr : List String) (j2 : Job) (tr2 : List String)
    (h : tryBody env job_id folder_id j tr = .ok (j2, tr2)) :
    tr2 = tr ++ ["finalizado"] ∧ j2.status = "finalizado" ∧
    ∃ fr uj uh up, env.finalReport = .ok fr ∧ env.uploadJson = .ok uj ∧
      env.uploadHtml = .ok uh ∧ env.uploadPdf = .ok up ∧
      j2.outputs = some (mkOutputs uj uh up) ∧
      j2.resumen = some (fr.resumen_clinico.getD "") := by
  simp only [tryBody] at h
  cases hc : env.conectar with
  | error e0 => simp [hc] at h
  | ok u =>
  simp only [hc] at h
  cases hl : env.listPdfs with
  | error e0 => simp [hl] at h
  | ok pdfs =>
  simp only [hl] at h
  cases hs : env.createSubfolder ("AUDITORIA_" ++ env.stamp) with
  | error e0 => simp [hs] at h
  | ok out_folder =>
  simp only [hs] at h
  split at h
  · simp at h
  · rename_i j3 docs fsx heq
    cases hf : env.finalReport with
    | error e0 => simp [hf] at h
    | ok fr =>
    simp only [hf] at h
    cases hu1 : env.uploadJson with
    | error e0 => simp [hu1] at h
    | ok uj =>
    simp only [hu1] at h
    cases hu2 : env.uploadHtml with
    | error e0 => simp [hu2] at h
    | ok uh =>
    simp only [hu2] at h
    cases hu3 : env.uploadPdf with
    | error e0 => simp [hu3] at h
    | ok up =>
    simp only [hu3, Except.ok.injEq, Prod.mk.injEq] at h
    obtain ⟨hj, htr⟩ := h
    rw [← hj, ← htr]
    exact ⟨rfl, rfl, fr, uj, uh, up, rfl, rfl, rfl, rfl, rfl, rfl⟩

theorem procesar_trace (env : Env) (job_id folder_id : String) (j : Job) :
    (procesar_drive_job env job_id folder_id j).2 = ["procesando", "finalizado"] ∨
    (procesar_drive_job env job_id folder_id j).2 = ["procesando", "error"] := by
  simp only [procesar_drive_job]
  split
  · rename_i j2 tr2 heq
    left
    have htr := (tryBody_ok_inv env job_id folder_id _ _ j2 tr2 heq).1
    simpa [setStatus] using htr
  · rename_i e j2 tr2 heq
    right
    have htr := (tryBody_error_inv env job_id folder_id _ _ e j2 tr2 heq).1
    simp [setStatus, htr]

/-- Claim C2: a job record's status only moves along the path
en_cola (queued) → procesando (processing) → finalizado/error: the full
status-write sequence is one of the two three-step paths, every consecutive
pair is a legal transition, and a terminal status is written exactly once, as
the last write. -/
theorem job_status_lifecycle (env : Env) (job_id folder_id : String) :
    (jobStatusTrace env job_id folder_id = ["en_cola", "procesando", "finalizado"] ∨
     jobStatusTrace env job_id folder_id = ["en_cola", "procesando", "error"]) ∧
    legalPath (jobStatusTrace env job_id folder_id) = true ∧
    (jobStatusTrace env job_id folder_id).countP isTerminalStatus = 1 ∧
    isTerminalStatus ((jobStatusTrace env job_id folder_id).getLastD "") = true := by
  have htr : jobStatusTrace env job_id folder_id =
      "en_cola" :: (procesar_drive_job env job_id folder_id (initialJob folder_id)).2 := rfl
  rcases procesar_trace env job_id folder_id (initialJob folder_id) with h | h <;>
    rw [htr, h] <;> exact ⟨by decide, by decide, by decide, by decide⟩

/-- Claim C3 counterexample: when the first stage raises an exception whose
message is the empty string (which Python allows), the job ends in status
"error" with the recorded error message empty — so the claim's "non-empty
error message" is not guaranteed by the code. -/
theorem job_error_message_can_be_empty :
    (procesar_drive_job { baseOkEnv with conectar := .error "" } "job-1" "folder-1"
        (initialJob "folder-1")).1.status = "error" ∧
    (procesar_drive_job { baseOkEnv with conectar := .error "" } "job-1" "folder-1"
        (initialJob "folder-1")).1.error = some "" :=
  ⟨rfl, rfl⟩

/-- Claim C3 (amended): for every job whose background run raises an exception
at any stage, the job record ends with status "error", the exception's message
recorded verbatim (hence non-empty exactly when the message is non-empty), and
no outputs entry is ever set. -/
theorem job_error_terminal_state (env : Env) (job_id folder_id : String)
    (e : String) (j2 : Job) (tr2 : List String)
    (h : tryBody env job_id folder_id
        { (setStatus "procesando" (initialJob folder_id) []).1 with started_at := some env.nowIso }
        ((setStatus "procesando" (initialJob folder_id) []).2) = .error (e, j2, tr2)) :
    (procesar_drive_job env job_id folder_id (initialJob folder_id)).1.status = "error" ∧
    (procesar_drive_job env job_id folder_id (initialJob folder_id)).1.error = some e ∧
    (procesar_drive_job env job_id folder_id (initialJob folder_id)).1.outputs = none := by
  have hinv := tryBody_error_inv env job_id folder_id _ _ e j2 tr2 h
  simp only [procesar_drive_job]
  split
  · rename_i j3 tr3 heq
    rw [h] at heq
    exact absurd heq (by simp)
  · rename_i e0 j3 tr3 heq
    rw [h] at heq
    simp only [Except.error.injEq, Prod.mk.injEq] at heq
    obtain ⟨he, hj, -⟩ := heq
    rw [hj] at hinv
    rw [he]
    exact ⟨rfl, rfl, hinv.2.2⟩

theorem job_error_terminal_state_witness :
    (procesar_drive_job { baseOkEnv with conectar := .error "boom" } "job-1" "folder-1"
        (initialJob "folder-1")).1.status = "error" ∧
    (procesar_drive_job { baseOkEnv with conectar := .error "boom" } "job-1" "folder-1"
        (initialJob "folder-1")).1.error = some "boom" ∧
    (procesar_drive_job { baseOkEnv with conectar := .error "boom" } "job-1" "folder-1"
        (initialJob "folder-1")).1.outputs = none :=
  job_error_terminal_state { baseOkEnv with conectar := .error "boom" } "job-1" "folder-1"
    "boom" _ _ rfl

/-- Claim C7 counterexample: a job whose stages all complete ends in status
"finalizado", yet its summary field is the empty string when the final
report carries no clinical summary — the claim's "non-empty summary field"
does not hold on the code. -/
theorem job_finished_summary_can_be_empty :
    (procesar_drive_job baseOkEnv "job-1" "folder-1" (initialJob "folder-1")).1.status =
      "finalizado" ∧
    (procesar_drive_job baseOkEnv "job-1" "folder-1" (initialJob "folder-1")).1.resumen =
      some "" :=
  ⟨rfl, rfl⟩

/-- Claim C7 (amended): for every job whose background run completes all
stages, the record ends with status "finalizado" and exactly three output
artifacts — the json, html and pdf entries, each carrying the upload's
identifier, name and view link — and a summary field equal to the report's
clinical summary (the empty string when the report has none). -/
theorem job_finished_outputs (env : Env) (job_id folder_id : String)
    (j2 : Job) (tr2 : List String)
    (h : tryBody env job_id folder_id
        { (setStatus "procesando" (initialJob folder_id) []).1 with started_at := some env.nowIso }
        ((setStatus "procesando" (initialJob folder_id) []).2) = .ok (j2, tr2)) :
    (procesar_drive_job env job_id folder_id (initialJob folder_id)).1.status = "finalizado" ∧
    ∃ fr uj uh up, env.finalReport = .ok fr ∧ env.uploadJson = .ok uj ∧
      env.uploadHtml = .ok uh ∧ env.uploadPdf = .ok up ∧
      (procesar_drive_job env job_id folder_id (initialJob folder_id)).1.outputs =
        some (mkOutputs uj uh up) ∧
      (procesar_drive_job env job_id folder_id (initialJob folder_id)).1.resumen =
        some (fr.resumen_clinico.getD "") := by
  have hres : (procesar_drive_job env job_id folder_id (initialJob folder_id)).1 = j2 := by
    simp only [procesar_drive_job]
    split
    · rename_i j3 tr3 heq
      rw [h] at heq
      simp only [Except.ok.injEq, Prod.mk.injEq] at heq
      exact heq.1.symm
    · rename_i e0 j3 tr3 heq
      rw [h] at heq
      exact absurd heq (by simp)
  obtain ⟨-, hstat, fr, uj, uh, up, hfr, huj, huh, hup, hout, hresu⟩ :=
    tryBody_ok_inv env job_id folder_id _ _ j2 tr2 h
  rw [hres]
  exact ⟨hstat, fr, uj, uh, up, hfr, huj, huh, hup, hout, hresu⟩

theorem job_finished_outputs_witness :
    (procesar_drive_job okEnvWithSummary "job-1" "folder-1" (initialJob "folder-1")).1.status =
      "finalizado" ∧
    ∃ fr uj uh up, okEnvWithSummary.finalReport = .ok fr ∧
      okEnvWithSummary.uploadJson = .ok uj ∧
      okEnvWithSummary.uploadHtml = .ok uh ∧ okEnvWithSummary.uploadPdf = .ok up ∧
      (procesar_drive_job okEnvWithSummary "job-1" "folder-1" (initialJob "folder-1")).1.outputs =
        some (mkOutputs uj uh up) ∧
      (procesar_drive_job okEnvWithSummary "job-1" "folder-1" (initialJob "folder-1")).1.resumen =
        some (fr.resumen_clinico.getD "") :=
  job_finished_outputs okEnvWithSummary "job-1" "folder-1" _ _ rfl

/-- Claim C8: querying the status endpoint never raises — an unknown job
identifier yields the error payload and a known identifier yields the full
current record. -/
theorem consultar_estado_spec (store : List (String × Job)) (job_id : String) :
    (store.lookup job_id = none →
      consultar_estado store job_id = .errorPayload "Job no encontrado") ∧
    (∀ j, store.lookup job_id = some j → consultar_estado store job_id = .record j) := by
  constructor
  · intro h
    unfold consultar_estado
    rw [h]
  · intro j h
    unfold consultar_estado
    rw [h]

theorem consultar_estado_spec_witness :
    consultar_estado [("a", initialJob "f")] "zzz" = .errorPayload "Job no encontrado" ∧
    consultar_estado [("a", initialJob "f")] "a" = .record (initialJob "f") :=
  ⟨(consultar_estado_spec [("a", initialJob "f")] "zzz").1 rfl,
   (consultar_estado_spec [("a", initialJob "f")] "a").2 (initialJob "f") rfl⟩

/-- Claim C9 counterexample: the submit endpoint stores the fresh record with
status "en_cola" (queued), but the response carries the fixed status
"en_proceso", which is not the record's initial status — the claim that the
response contains the initial status fails. -/
theorem iniciar_proceso_status_mismatch :
    (iniciar_proceso [] "job-1" "folder-1").1.lookup "job-1" = some (initialJob "folder-1") ∧
    (initialJob "folder-1").status = "en_cola" ∧
    (iniciar_proceso [] "job-1" "folder-1").2.job_id = "job-1" ∧
    (iniciar_proceso [] "job-1" "folder-1").2.status = "en_proceso" ∧
    (iniciar_proceso [] "job-1" "folder-1").2.status ≠ (initialJob "folder-1").status := by
  refine ⟨?_, rfl, rfl, rfl, ?_⟩
  · simp [iniciar_proceso, List.lookup]
  · decide

/-- Claim C9 (amended): every submit request stores a fresh record with status
"en_cola" (queued) and the originating folder identifier under the generated
identifier, and the response carries the generated identifier together with
the fixed acknowledgement status "en_proceso" — not the record's initial
queued status. -/
theorem iniciar_proceso_spec (store : List (String × Job)) (new_job_id folder_id : String) :
    (iniciar_proceso store new_job_id folder_id).1.lookup new_job_id =
      some (initialJob folder_id) ∧
    (initialJob folder_id).status = "en_cola" ∧
    (initialJob folder_id).folder_id = folder_id ∧
    (iniciar_proceso store new_job_id folder_id).2 =
      { status := "en_proceso", job_id := new_job_id } := by
  refine ⟨?_, rfl, rfl, rfl⟩
  simp [iniciar_proceso, List.lookup]

end InvgateBoreal
